import Mathlib

/-!
Verification of the gocloudfiles repository (src/cloudfiles.go) against its
natural-language specification.

The development shallowly embeds the Go source:

* the chunk planner arithmetic of `CopyFile` (lines 347-352 and 385-389),
  using `Int.tdiv` / `Int.tmod`, which have Go's truncated-division semantics;
* the HTTP-level operations `GetFileSize`, `GetChunk`, `PutFile` as pure
  functions of the response the `http.Client` produced, where the transport
  outcome is an `Option` (`none` models `client.Do` returning a nil response
  together with an error) and a result of `none` models a nil-pointer panic;
* the per-chunk worker body of `CopyFile` (lines 373-437) as a pure function
  of the results of its collaborator calls, recording which effects ran;
* the manifest sorting of `putManifest` (lines 301-304);
* the scheduling loop of `CopyFile` (lines 357-476) - buffered semaphore,
  goroutine per chunk, non-blocking `select` draining of the error and
  manifest channels - as a small-step transition system `Step` over `AggSt`,
  with an adversarial scheduler.

MD5 is not implemented; every statement about content hashes is parameterized
by an arbitrary hash function `md5hex`, which is all the claims require.
-/

/-! ## Chunk planner (src/cloudfiles.go lines 339-352, 385-389) -/

/-- Line 340: `chunkSize := int64(256 * 1024 * 1024)`. -/
def goChunkSize : Int := 256 * 1024 * 1024

/-- Lines 347-352:
`chunkCount := size / chunkSize; remainder := size % chunkSize;
if remainder > 0 { chunkCount++ }`.
Go's `/` and `%` on int64 truncate toward zero, i.e. `Int.tdiv` / `Int.tmod`. -/
def chunkCount (size chunkSize : Int) : Int :=
  if Int.tmod size chunkSize > 0 then Int.tdiv size chunkSize + 1
  else Int.tdiv size chunkSize

/-- Lines 385-389: per-chunk read length.
`size := chunkSize; if chunkIndex == (chunkCount - 1) { size = remainder }`.
Note the remainder is installed unconditionally on the last chunk, even when
it is zero. -/
def chunkLen (size chunkSize chunkIndex : Int) : Int :=
  if chunkIndex = chunkCount size chunkSize - 1 then Int.tmod size chunkSize
  else chunkSize

/-- Byte range a chunk actually requests from the source, as half-open
`[start, stop)`.  `GetChunk` (lines 221-223) adds a `Range` header only when
`length > 0`; otherwise the request fetches the entire object `[0, size)`. -/
def chunkReadRange (size chunkSize chunkIndex : Int) : Int × Int :=
  if chunkLen size chunkSize chunkIndex > 0 then
    (chunkIndex * chunkSize, chunkIndex * chunkSize + chunkLen size chunkSize chunkIndex)
  else
    (0, size)

/-! ## Manifest items and `putManifest` sorting (lines 56-75, 294-304) -/

/-- Line 56-60: `manifestItem` with json fields path, etag, size_bytes. -/
structure manifestItem where
  Path : String
  ETag : String
  Size : Int
deriving DecidableEq

/-- Line 69-71: `manifestList.Less` compares by `Path` with Go string `<`. -/
def manifestLess (a b : manifestItem) : Prop := a.Path < b.Path

instance : DecidableRel manifestLess := fun a b => by
  unfold manifestLess; infer_instance

/-- The order relation `sort.Sort` establishes: element `i` before `j` means
`!Less(j, i)`, i.e. `a.Path ≤ b.Path`. -/
def manifestLe (a b : manifestItem) : Bool := decide (a.Path ≤ b.Path)

/-- Lines 301-304: `putManifest` sorts the collected items by `Path` before
marshalling them as the manifest payload.  `sort.Sort` guarantees the result
is a permutation of the input sorted with respect to `Less`; `mergeSort` with
the corresponding total order is such a sort.  (The claims proved about it
use only the sortedness and permutation properties, plus distinctness of
paths, so they are insensitive to which correct sort the runtime performs.) -/
def putManifestOrder (manifestItems : List manifestItem) : List manifestItem :=
  manifestItems.mergeSort manifestLe

/-! ## HTTP responses and the three transfer primitives -/

/-- Response to the `HEAD` request of `GetFileSize` (lines 184-199).
`contentLength = none` models a `Content-Length` header that
`strconv.ParseInt` rejects. -/
structure HeadResp where
  status : Int
  contentLength : Option Int
  etag : String

/-- Response to the `GET` request of `GetChunk` (lines 218-253). -/
structure GetResp where
  status : Int
  etagHdr : String
  body : List Nat

/-- Response to the `PUT` request of `PutFile` (lines 276-291). -/
structure PutResp where
  status : Int
  etag : String

/-- Lines 169-199, `GetFileSize`.  `endpointOk = false` models the region
missing from `cf.dcs`.  `doResp = none` models `client.Do` returning a nil
response together with an error; line 189 then evaluates `resp.StatusCode`
on a nil pointer, which panics - modelled as the total result `none`.
A `some` result is the `(length, etag, error)` return value. -/
def GetFileSize (endpointOk : Bool) (doResp : Option HeadResp) :
    Option (Except String (Int × String)) :=
  if endpointOk = false then some (.error "Could not find region in service catalog.")
  else
    match doResp with
    | none => none
    | some resp =>
      if resp.status ≠ 200 then
        some (.error "Could not fetch cloud file, status")
      else
        match resp.contentLength with
        | none => some (.error "Could not determine content length.")
        | some n => some (.ok (n, resp.etag))

/-- Lines 221-223 of `GetChunk`: the request carries a
`Range: bytes=offset-(offset+length-1)` header only when `length > 0`. -/
def getChunkRange (offset length : Int) : Option (Int × Int) :=
  if length > 0 then some (offset, offset + length - 1) else none

/-- An object held by the storage service: its bytes and the whole-object
hash the service reports in the `Etag` header. -/
structure SrvObject where
  data : List Nat
  etagFull : String

/-- The storage service answering a `GET`: a request without a `Range` header
returns the full object with status 200; a ranged request returns the bytes
of the inclusive range `[a, b]` with status 206.  In both cases the `Etag`
header carries the whole-object hash. -/
def serveGet (obj : SrvObject) (range : Option (Int × Int)) : GetResp :=
  match range with
  | none => { status := 200, etagHdr := obj.etagFull, body := obj.data }
  | some (a, b) =>
      { status := 206, etagHdr := obj.etagFull,
        body := (obj.data.drop a.toNat).take (b - a + 1).toNat }

/-- Lines 202-259, `GetChunk`, as a function of the response.  `md5hex` is the
abstract content hash (crypto/md5 + hex.EncodeToString).  `copyErr` models a
failure of `io.Copy`.  `doResp = none` models `client.Do` returning a nil
response with an error; line 230 then dereferences `resp.StatusCode` and
panics - result `none`.  On success the returned pair is `(size, etag)`:
for `length > 0` the body is streamed through an `md5` multi-writer and the
etag is the hash of exactly the bytes copied (lines 239-248); otherwise the
etag is taken from the service's `Etag` header (lines 250-253). -/
def GetChunk (md5hex : List Nat → String) (endpointOk : Bool)
    (doResp : Option GetResp) (copyErr : Option String) (length : Int) :
    Option (Except String (Int × String)) :=
  if endpointOk = false then some (.error "Could not find region in service catalog.")
  else
    match doResp with
    | none => none
    | some resp =>
      if resp.status ≠ 200 ∧ resp.status ≠ 206 then
        some (.error "Could not fetch cloud file, status")
      else
        match copyErr with
        | some e => some (.error e)
        | none =>
          if length > 0 then
            some (.ok ((resp.body.length : Int), md5hex resp.body))
          else
            some (.ok ((resp.body.length : Int), resp.etagHdr))

/-- Lines 262-292, `PutFile`.  `doResp = none` models `client.Do` returning a
nil response with an error; line 283 dereferences `resp.StatusCode` on nil
and panics - result `none`. -/
def PutFile (endpointOk : Bool) (doResp : Option PutResp) :
    Option (Except String String) :=
  if endpointOk = false then some (.error "Could not find region in service catalog.")
  else
    match doResp with
    | none => none
    | some resp =>
      if resp.status ≠ 201 then some (.error "Could not put cloud file, status")
      else some (.ok resp.etag)

/-! ## The chunk worker (lines 373-437) -/

/-- Results of the worker's collaborator calls:
`tmpOk` - whether `ioutil.TempFile` succeeded (line 376);
`download` - result of `cf.GetChunk` on the source, `(bytesRead, etag)`;
`statDest` - result of `cf.GetFileSize` on the destination part name,
`(size, etagUp)`;
`put` - etag returned by `cf.PutFile` of the buffered bytes. -/
structure WorkerEnv where
  tmpOk : Bool
  download : Except String (Int × String)
  statDest : Except String (Int × String)
  put : Except String String

/-- How one worker goroutine terminates.  `crashed`: the goroutine panicked.
`failed e`: it sent `e` on the error channel.  `completed m`: it sent the
manifest item `m` on the manifest channel. -/
inductive WorkerExit where
  | crashed : WorkerExit
  | failed (e : String) : WorkerExit
  | completed (m : manifestItem) : WorkerExit
deriving DecidableEq

/-- Effects the worker performed: whether `cf.PutFile` was called, and whether
the temporary file was released (the deferred `os.Remove` ran without
panicking). -/
structure WorkerActs where
  putCalled : Bool
  released : Bool
deriving DecidableEq

/-- Lines 414-426: the upload-and-verify tail of the worker.  `PutFile`
overwrites `etagUp`; a put error is sent to the error channel (the integrity
check at line 423 compares the upload etag against the download etag). -/
def chunkWorkerPut (env : WorkerEnv) (etag : String) (bytesRead : Int)
    (destBucket destFileName : String) : WorkerExit × WorkerActs :=
  match env.put with
  | .error e => (.failed e, ⟨true, true⟩)
  | .ok etagUp =>
    if etagUp ≠ etag then
      (.failed ("Upload etag does not match download etag: " ++ etag ++ " " ++ etagUp ++ "!"),
       ⟨true, true⟩)
    else
      (.completed ⟨destBucket ++ "/" ++ destFileName, etag, bytesRead⟩, ⟨true, true⟩)

/-- Lines 373-437: the body of one chunk goroutine.

When `ioutil.TempFile` fails it returns a nil `*os.File`; line 377 is
`defer os.Remove(tmpFile.Name())`, and Go evaluates the argument
`tmpFile.Name()` at the `defer` statement itself, dereferencing the nil
handle - the goroutine panics before reaching the `err != nil` check at
line 379, and the temporary buffer path is never released.  This is the
`crashed` case.

Otherwise the deferred remove releases the buffer on every path.  Lines
407-421: the destination part is probed with `GetFileSize`; if the probe
succeeds and its etag equals the download hash the upload is skipped,
otherwise `PutFile` runs.  Line 423: an upload etag differing from the
download etag is an integrity failure.  Lines 428-434: the manifest item
`destBucket/destFile-index` with the download etag and bytes read. -/
def chunkWorker (env : WorkerEnv) (destBucket destFile : String)
    (chunkIndex : Int) : WorkerExit × WorkerActs :=
  if env.tmpOk = false then (.crashed, ⟨false, false⟩)
  else
    match env.download with
    | .error e => (.failed e, ⟨false, true⟩)
    | .ok (bytesRead, etag) =>
      let destFileName := destFile ++ "-" ++ toString chunkIndex
      match env.statDest with
      | .ok (_, etagUp) =>
        if etagUp = etag then
          (.completed ⟨destBucket ++ "/" ++ destFileName, etag, bytesRead⟩, ⟨false, true⟩)
        else
          chunkWorkerPut env etag bytesRead destBucket destFileName
      | .error _ => chunkWorkerPut env etag bytesRead destBucket destFileName

/-! ## The scheduling loop of `CopyFile` (lines 357-476)

The loop dispatches one goroutine per chunk behind a counting semaphore
`sem` of capacity 5 (lines 358-359), and after the loop refills the
semaphore with 5 tokens (lines 454-469).  After each semaphore send the
main thread performs one non-blocking `select` over the error channel and
the manifest channel with a `default` branch.  An error received inside
the loop latches `processError` and `break loop`s (lines 440-444); an error
received in the drain overwrites `processError` (lines 459-463).  The model
is a small-step transition system scheduled by an adversary: worker sends
and semaphore releases interleave freely with the main thread's steps.
Worker `w`'s eventual outcome is `oc w : Except E M` (`error` = it sends on
`errorChan`, `ok` = it sends on `manifestChan`); channels are FIFO queues,
unbounded in the model (the real buffers only restrict scheduling further,
so every real behavior is a behavior of the model). -/

/-- Program counter of the main thread of `CopyFile`.
`iter k` - at the top of the loop, about to test `chunkId < chunkCount`;
`sel k` - after dispatching chunk `k`, about to run the loop `select`;
`dIter j` - at the top of drain iteration `j`, about to test `i < cap(sem)`;
`dSel j` - about to run drain iteration `j`'s `select`;
`finished` - past the drain, at the `processError` check of line 472. -/
inductive Pc where
  | iter (k : Nat)
  | sel (k : Nat)
  | dIter (j : Nat)
  | dSel (j : Nat)
  | finished
deriving DecidableEq

/-- State of one `CopyFile` call.
`spawned` - goroutines started so far (ghost; equals the loop counter);
`tokens` - current length of the `sem` channel;
`popped` - completed `<-sem` releases by workers;
`running` - ids of goroutines that have not yet sent their outcome;
`sentW` - ids of goroutines that have sent, in send order (ghost);
`errQ` / `mfQ` - contents of `errorChan` / `manifestChan`;
`manifests` - the `manifests` slice of line 355, in append order;
`consumedErr` - errors received by the main thread, in receive order (ghost);
`processError` - the `processError` variable of line 365. -/
structure AggSt (E M : Type) where
  pc : Pc
  spawned : Nat
  tokens : Nat
  popped : Nat
  running : List Nat
  sentW : List Nat
  errQ : List E
  mfQ : List M
  manifests : List M
  consumedErr : List E
  processError : Option E
deriving DecidableEq

/-- Initial state: about to run loop iteration 0 (line 370). -/
def aggInit (E M : Type) : AggSt E M :=
  ⟨.iter 0, 0, 0, 0, [], [], [], [], [], [], none⟩

/-- One step of the `CopyFile` orchestration, with chunk count `cc` and the
outcome function `oc`.  Main-thread steps follow the program counter; worker
steps (`wSendErr`, `wSendOk`, `wPop`) can interleave anywhere the scheduler
likes.  A `select` must take a ready case; `default` fires only when both
channels are empty.  `sem <- true` requires `tokens < 5`; `<-sem` requires a
token and a sent-but-not-yet-released worker. -/
inductive Step (cc : Nat) {E M : Type} (oc : Nat → Except E M) :
    AggSt E M → AggSt E M → Prop where
  | spawn (s : AggSt E M) (k : Nat)
      (hpc : s.pc = .iter k) (hk : k < cc) (ht : s.tokens < 5) :
      Step cc oc s { s with pc := .sel k, spawned := s.spawned + 1,
                            tokens := s.tokens + 1, running := k :: s.running }
  | toDrain (s : AggSt E M) (k : Nat)
      (hpc : s.pc = .iter k) (hk : ¬ k < cc) :
      Step cc oc s { s with pc := .dIter 0 }
  | selErr (s : AggSt E M) (k : Nat) (e : E) (rest : List E)
      (hpc : s.pc = .sel k) (hq : s.errQ = e :: rest) :
      Step cc oc s { s with pc := .dIter 0, errQ := rest,
                            consumedErr := s.consumedErr ++ [e],
                            processError := some e }
  | selMf (s : AggSt E M) (k : Nat) (m : M) (rest : List M)
      (hpc : s.pc = .sel k) (hq : s.mfQ = m :: rest) :
      Step cc oc s { s with pc := .iter (k + 1), mfQ := rest,
                            manifests := s.manifests ++ [m] }
  | selNone (s : AggSt E M) (k : Nat)
      (hpc : s.pc = .sel k) (he : s.errQ = []) (hm : s.mfQ = []) :
      Step cc oc s { s with pc := .iter (k + 1) }
  | dPush (s : AggSt E M) (j : Nat)
      (hpc : s.pc = .dIter j) (hj : j < 5) (ht : s.tokens < 5) :
      Step cc oc s { s with pc := .dSel j, tokens := s.tokens + 1 }
  | dSelErr (s : AggSt E M) (j : Nat) (e : E) (rest : List E)
      (hpc : s.pc = .dSel j) (hq : s.errQ = e :: rest) :
      Step cc oc s { s with pc := .dIter (j + 1), errQ := rest,
                            consumedErr := s.consumedErr ++ [e],
                            processError := some e }
  | dSelMf (s : AggSt E M) (j : Nat) (m : M) (rest : List M)
      (hpc : s.pc = .dSel j) (hq : s.mfQ = m :: rest) :
      Step cc oc s { s with pc := .dIter (j + 1), mfQ := rest,
                            manifests := s.manifests ++ [m] }
  | dSelNone (s : AggSt E M) (j : Nat)
      (hpc : s.pc = .dSel j) (he : s.errQ = []) (hm : s.mfQ = []) :
      Step cc oc s { s with pc := .dIter (j + 1) }
  | finish (s : AggSt E M) (j : Nat)
      (hpc : s.pc = .dIter j) (hj : ¬ j < 5) :
      Step cc oc s { s with pc := .finished }
  | wSendErr (s : AggSt E M) (w : Nat) (e : E)
      (hw : w ∈ s.running) (hoc : oc w = .error e) :
      Step cc oc s { s with running := s.running.erase w,
                            sentW := s.sentW ++ [w], errQ := s.errQ ++ [e] }
  | wSendOk (s : AggSt E M) (w : Nat) (m : M)
      (hw : w ∈ s.running) (hoc : oc w = .ok m) :
      Step cc oc s { s with running := s.running.erase w,
                            sentW := s.sentW ++ [w], mfQ := s.mfQ ++ [m] }
  | wPop (s : AggSt E M)
      (ht : 0 < s.tokens) (hp : s.popped < s.sentW.length) :
      Step cc oc s { s with tokens := s.tokens - 1, popped := s.popped + 1 }

/-- Reachability of an orchestration state from the initial state. -/
def Reachable (cc : Nat) {E M : Type} (oc : Nat → Except E M)
    (s : AggSt E M) : Prop :=
  Relation.ReflTransGen (Step cc oc) (aggInit E M) s

/-- Total `sem <- true` sends performed so far, as a function of the program
counter: each loop iteration and each drain iteration pushes before its
`select`. -/
def pushes {E M : Type} (s : AggSt E M) : Nat :=
  match s.pc with
  | .iter k => k
  | .sel k => k + 1
  | .dIter j => s.spawned + j
  | .dSel j => s.spawned + j + 1
  | .finished => s.spawned + 5

/-- Total `select` statements completed so far. -/
def selectsDone {E M : Type} (s : AggSt E M) : Nat :=
  match s.pc with
  | .iter k => k
  | .sel k => k
  | .dIter j => s.spawned + j
  | .dSel j => s.spawned + j
  | .finished => s.spawned + 5

/-- Outcomes the main thread has received (appended to `manifests` or
latched from the error channel). -/
def consumedCount {E M : Type} (s : AggSt E M) : Nat :=
  s.manifests.length + s.consumedErr.length

/-- Workers currently executing: dispatched goroutines that have not yet
released their semaphore token. -/
def activeWorkers {E M : Type} (s : AggSt E M) : Nat :=
  s.running.length + (s.sentW.length - s.popped)

/-- Sanity of the program counter relative to the loop bounds. -/
def PcOk (cc : Nat) {E M : Type} (s : AggSt E M) : Prop :=
  match s.pc with
  | .iter k => s.spawned = k ∧ k ≤ cc
  | .sel k => s.spawned = k + 1 ∧ k < cc
  | .dIter j => j ≤ 5 ∧ s.spawned ≤ cc
  | .dSel j => j < 5 ∧ s.spawned ≤ cc
  | .finished => s.spawned ≤ cc

/-- The main thread has left the dispatch loop. -/
def DrainPhase : Pc → Prop
  | .dIter _ => True
  | .dSel _ => True
  | .finished => True
  | _ => False

/-- Test for a failed outcome. -/
def isErrOutcome {E M : Type} (oc : Nat → Except E M) (w : Nat) : Bool :=
  !(oc w).isOk

/-- The inductive invariant of the orchestration. -/
structure AggInv (cc : Nat) {E M : Type} (oc : Nat → Except E M)
    (s : AggSt E M) : Prop where
  tokens_le : s.tokens ≤ 5
  token_eq : s.tokens + s.popped = pushes s
  popped_le : s.popped ≤ s.sentW.length
  sent_split : s.sentW.length =
    s.manifests.length + s.consumedErr.length + s.errQ.length + s.mfQ.length
  sel_bound : selectsDone s ≤ s.manifests.length + s.consumedErr.length + 5
  pc_ok : PcOk cc s
  perm : (s.running ++ s.sentW).Perm (List.range s.spawned)
  err_cnt : s.errQ.length + s.consumedErr.length =
    s.sentW.countP (isErrOutcome oc)
  pe_none_iff : s.processError = none ↔ s.consumedErr = []
  pe_last : s.processError = s.consumedErr.getLast?
  drain_pe : DrainPhase s.pc → s.processError = none → s.spawned = cc
  act_bound : s.running.length + s.sentW.length ≤ s.tokens + s.popped

/-! ## Invariant proofs for the orchestration -/

theorem aggInv_init (cc : Nat) {E M : Type} (oc : Nat → Except E M) :
    AggInv cc oc (aggInit E M) := by
  constructor <;>
    simp [aggInit, pushes, selectsDone, PcOk, DrainPhase]

theorem aggInv_step (cc : Nat) {E M : Type} {oc : Nat → Except E M}
    {s t : AggSt E M} (hs : AggInv cc oc s) (h : Step cc oc s t) :
    AggInv cc oc t := by
  obtain ⟨h1, h2, h3, h4, h5, h6, h7, h8, h9, h10, h11, h12⟩ := hs
  cases h with
  | spawn k hpc hk ht =>
    simp only [PcOk, hpc] at h6
    obtain ⟨hsp, hkc⟩ := h6
    simp only [pushes, hpc] at h2
    simp only [selectsDone, hpc] at h5
    refine ⟨?_, ?_, h3, h4, ?_, ?_, ?_, h8, h9, h10, ?_, ?_⟩
    · dsimp only; omega
    · dsimp only [pushes]; omega
    · dsimp only [selectsDone]; omega
    · dsimp only [PcOk]; exact ⟨by omega, hk⟩
    · dsimp only; simp only [List.cons_append]
      subst hsp
      refine (h7.cons s.spawned).trans ?_
      rw [List.range_succ]
      exact (List.perm_append_singleton _ _).symm
    · simp [DrainPhase]
    · dsimp only; simp only [List.length_cons]; omega
  | toDrain k hpc hk =>
    simp only [PcOk, hpc] at h6
    obtain ⟨hsp, hkc⟩ := h6
    simp only [pushes, hpc] at h2
    simp only [selectsDone, hpc] at h5
    refine ⟨h1, ?_, h3, h4, ?_, ?_, h7, h8, h9, h10, ?_, h12⟩
    · dsimp only [pushes]; omega
    · dsimp only [selectsDone]; omega
    · dsimp only [PcOk]; exact ⟨by omega, by omega⟩
    · intro _ _; dsimp only; omega
  | selErr k e rest hpc hq =>
    simp only [PcOk, hpc] at h6
    obtain ⟨hsp, hkc⟩ := h6
    simp only [pushes, hpc] at h2
    simp only [selectsDone, hpc] at h5
    have h4a := h4
    simp only [hq, List.length_cons] at h4a
    have h8a := h8
    simp only [hq, List.length_cons] at h8a
    refine ⟨h1, ?_, h3, ?_, ?_, ?_, h7, ?_, ?_, ?_, ?_, h12⟩
    · dsimp only [pushes]; omega
    · dsimp only; simp only [List.length_append, List.length_singleton]; omega
    · dsimp only [selectsDone]
      simp only [List.length_append, List.length_singleton]; omega
    · dsimp only [PcOk]; exact ⟨by omega, by omega⟩
    · dsimp only; simp only [List.length_append, List.length_singleton]; omega
    · dsimp only; simp
    · dsimp only; simp [List.getLast?_concat]
    · intro _ hpe; simp at hpe
  | selMf k m rest hpc hq =>
    simp only [PcOk, hpc] at h6
    obtain ⟨hsp, hkc⟩ := h6
    simp only [pushes, hpc] at h2
    simp only [selectsDone, hpc] at h5
    have h4a := h4
    simp only [hq, List.length_cons] at h4a
    refine ⟨h1, ?_, h3, ?_, ?_, ?_, h7, h8, h9, h10, ?_, h12⟩
    · dsimp only [pushes]; omega
    · dsimp only; simp only [List.length_append, List.length_singleton]; omega
    · dsimp only [selectsDone]
      simp only [List.length_append, List.length_singleton]; omega
    · dsimp only [PcOk]; exact ⟨by omega, by omega⟩
    · simp [DrainPhase]
  | selNone k hpc he hm =>
    simp only [PcOk, hpc] at h6
    obtain ⟨hsp, hkc⟩ := h6
    simp only [pushes, hpc] at h2
    simp only [selectsDone, hpc] at h5
    have h4a := h4
    simp only [he, hm, List.length_nil] at h4a
    refine ⟨h1, ?_, h3, h4, ?_, ?_, h7, h8, h9, h10, ?_, h12⟩
    · dsimp only [pushes]; omega
    · dsimp only [selectsDone]; omega
    · dsimp only [PcOk]; exact ⟨by omega, by omega⟩
    · simp [DrainPhase]
  | dPush j hpc hj ht =>
    simp only [PcOk, hpc] at h6
    obtain ⟨hj5, hsc⟩ := h6
    simp only [pushes, hpc] at h2
    simp only [selectsDone, hpc] at h5
    simp only [DrainPhase, hpc, true_implies] at h11
    refine ⟨?_, ?_, h3, h4, ?_, ?_, h7, h8, h9, h10, ?_, ?_⟩
    · dsimp only; omega
    · dsimp only [pushes]; omega
    · dsimp only [selectsDone]; omega
    · dsimp only [PcOk]; exact ⟨hj, hsc⟩
    · intro _ hpe; exact h11 hpe
    · dsimp only; omega
  | dSelErr j e rest hpc hq =>
    simp only [PcOk, hpc] at h6
    obtain ⟨hj5, hsc⟩ := h6
    simp only [pushes, hpc] at h2
    simp only [selectsDone, hpc] at h5
    have h4a := h4
    simp only [hq, List.length_cons] at h4a
    have h8a := h8
    simp only [hq, List.length_cons] at h8a
    refine ⟨h1, ?_, h3, ?_, ?_, ?_, h7, ?_, ?_, ?_, ?_, h12⟩
    · dsimp only [pushes]; omega
    · dsimp only; simp only [List.length_append, List.length_singleton]; omega
    · dsimp only [selectsDone]
      simp only [List.length_append, List.length_singleton]; omega
    · dsimp only [PcOk]; exact ⟨by omega, hsc⟩
    · dsimp only; simp only [List.length_append, List.length_singleton]; omega
    · dsimp only; simp
    · dsimp only; simp [List.getLast?_concat]
    · intro _ hpe; simp at hpe
  | dSelMf j m rest hpc hq =>
    simp only [PcOk, hpc] at h6
    obtain ⟨hj5, hsc⟩ := h6
    simp only [pushes, hpc] at h2
    simp only [selectsDone, hpc] at h5
    have h4a := h4
    simp only [hq, List.length_cons] at h4a
    simp only [DrainPhase, hpc, true_implies] at h11
    refine ⟨h1, ?_, h3, ?_, ?_, ?_, h7, h8, h9, h10, ?_, h12⟩
    · dsimp only [pushes]; omega
    · dsimp only; simp only [List.length_append, List.length_singleton]; omega
    · dsimp only [selectsDone]
      simp only [List.length_append, List.length_singleton]; omega
    · dsimp only [PcOk]; exact ⟨by omega, hsc⟩
    · intro _ hpe; exact h11 hpe
  | dSelNone j hpc he hm =>
    simp only [PcOk, hpc] at h6
    obtain ⟨hj5, hsc⟩ := h6
    simp only [pushes, hpc] at h2
    simp only [selectsDone, hpc] at h5
    have h4a := h4
    simp only [he, hm, List.length_nil] at h4a
    simp only [DrainPhase, hpc, true_implies] at h11
    refine ⟨h1, ?_, h3, h4, ?_, ?_, h7, h8, h9, h10, ?_, h12⟩
    · dsimp only [pushes]; omega
    · dsimp only [selectsDone]; omega
    · dsimp only [PcOk]; exact ⟨by omega, hsc⟩
    · intro _ hpe; exact h11 hpe
  | finish j hpc hj =>
    simp only [PcOk, hpc] at h6
    obtain ⟨hj5, hsc⟩ := h6
    simp only [pushes, hpc] at h2
    simp only [selectsDone, hpc] at h5
    simp only [DrainPhase, hpc, true_implies] at h11
    refine ⟨h1, ?_, h3, h4, ?_, ?_, h7, h8, h9, h10, ?_, h12⟩
    · dsimp only [pushes]; omega
    · dsimp only [selectsDone]; omega
    · dsimp only [PcOk]; exact hsc
    · intro _ hpe; exact h11 hpe
  | wSendErr w e hw hoc =>
    have hlen := List.length_erase_of_mem hw
    have hpos : 0 < s.running.length :=
      List.length_pos.mpr (List.ne_nil_of_mem hw)
    refine ⟨h1, h2, ?_, ?_, h5, h6, ?_, ?_, h9, h10, h11, ?_⟩
    · dsimp only; simp only [List.length_append, List.length_singleton]; omega
    · dsimp only; simp only [List.length_append, List.length_singleton]; omega
    · dsimp only
      exact ((List.perm_append_singleton w s.sentW).append_left _).trans
        (List.perm_middle.trans
          (((List.perm_cons_erase hw).symm.append_right _).trans h7))
    · dsimp only
      simp [List.countP_append, List.countP_cons, List.countP_nil,
        List.length_append, List.length_singleton, isErrOutcome, hoc,
        Except.isOk, Except.toBool]
      omega
    · dsimp only; simp only [List.length_append, List.length_singleton]; omega
  | wSendOk w m hw hoc =>
    have hlen := List.length_erase_of_mem hw
    have hpos : 0 < s.running.length :=
      List.length_pos.mpr (List.ne_nil_of_mem hw)
    refine ⟨h1, h2, ?_, ?_, h5, h6, ?_, ?_, h9, h10, h11, ?_⟩
    · dsimp only; simp only [List.length_append, List.length_singleton]; omega
    · dsimp only; simp only [List.length_append, List.length_singleton]; omega
    · dsimp only
      exact ((List.perm_append_singleton w s.sentW).append_left _).trans
        (List.perm_middle.trans
          (((List.perm_cons_erase hw).symm.append_right _).trans h7))
    · dsimp only
      simp [List.countP_append, List.countP_cons, List.countP_nil,
        List.length_append, List.length_singleton, isErrOutcome, hoc,
        Except.isOk, Except.toBool]
      omega
    · dsimp only; simp only [List.length_append, List.length_singleton]; omega
  | wPop ht hp =>
    refine ⟨?_, ?_, ?_, h4, h5, h6, h7, h8, h9, h10, h11, ?_⟩
    · dsimp only; omega
    · dsimp only [pushes] at h2 ⊢; omega
    · dsimp only; omega
    · dsimp only; omega

theorem aggInv_reachable {cc : Nat} {E M : Type} {oc : Nat → Except E M}
    {s : AggSt E M} (h : Reachable cc oc s) : AggInv cc oc s := by
  induction h with
  | refl => exact aggInv_init cc oc
  | tail _ hstep ih => exact aggInv_step cc ih hstep

/-! ## Supporting lemmas for the claims -/

instance : IsAntisymm manifestItem (fun a b => a.Path < b.Path) :=
  ⟨fun _ _ h1 h2 => absurd h1 (lt_asymm h2)⟩

theorem neg_tmod_eq (a b : Int) : Int.tmod (-a) b = - Int.tmod a b := by
  simp only [Int.tmod_def, Int.neg_tdiv]
  ring

theorem sorted_putManifestOrder (l : List manifestItem) :
    List.Sorted (fun a b : manifestItem => a.Path ≤ b.Path) (putManifestOrder l) := by
  have htrans : ∀ a b c : manifestItem, manifestLe a b = true → manifestLe b c = true →
      manifestLe a c = true := by
    intro a b c hab hbc
    simp only [manifestLe, decide_eq_true_eq] at hab hbc ⊢
    exact le_trans hab hbc
  have htotal : ∀ a b : manifestItem, (manifestLe a b || manifestLe b a) = true := by
    intro a b
    simp only [manifestLe, Bool.or_eq_true, decide_eq_true_eq]
    exact le_total a.Path b.Path
  have hp := List.sorted_mergeSort htrans htotal l
  exact List.Pairwise.imp
    (fun hab => by simpa [manifestLe, decide_eq_true_eq] using hab) hp

theorem strict_sorted_of_nodup_paths (l : List manifestItem)
    (hndl : (l.map manifestItem.Path).Nodup)
    (hsl : List.Sorted (fun a b : manifestItem => a.Path ≤ b.Path) l) :
    List.Sorted (fun a b : manifestItem => a.Path < b.Path) l := by
  have hpw : l.Pairwise (fun a b => a.Path ≠ b.Path) := by
    simpa [List.Nodup, List.pairwise_map] using hndl
  exact List.Pairwise.imp (fun h => lt_of_le_of_ne h.1 h.2)
    (List.Pairwise.and hsl hpw)

/-! ## Claim theorems: planner, primitives, worker, manifest -/

/-- C1: refutation at the claim's own example.  For S = 1073741824 and
chunkSize = 268435456 (an exact multiple) the code plans 4 chunks, but the
last chunk's read length is computed as the remainder 0, not 268435456;
`GetChunk` treats length 0 as a whole-object read, so chunk 3 reads the
entire `[0, 1073741824)` instead of `[805306368, 1073741824)` - the ranges
do not partition `[0, S)` and the last chunk is not a ranged read of length
chunkSize. -/
theorem chunkPlan_exact_multiple_zero_length :
    chunkCount 1073741824 268435456 = 4 ∧
    chunkLen 1073741824 268435456 3 = 0 ∧
    chunkLen 1073741824 268435456 3 ≠ 268435456 ∧
    chunkReadRange 1073741824 268435456 3 = (0, 1073741824) ∧
    chunkReadRange 1073741824 268435456 3 ≠ (805306368, 1073741824) := by
  refine ⟨by decide, by decide, by decide, by decide, by decide⟩

/-- C4: when the destination probe succeeds and reports a hash equal to the
hash just computed from the downloaded bytes, the worker performs no
`PutFile` call and still emits its manifest item carrying that hash and the
bytes read. -/
theorem worker_idempotent_skip (env : WorkerEnv) (destBucket destFile : String)
    (chunkIndex n sz : Int) (h : String)
    (htmp : env.tmpOk = true)
    (hdl : env.download = .ok (n, h))
    (hst : env.statDest = .ok (sz, h)) :
    chunkWorker env destBucket destFile chunkIndex =
      (.completed ⟨destBucket ++ "/" ++ (destFile ++ "-" ++ toString chunkIndex), h, n⟩,
       ⟨false, true⟩) := by
  simp [chunkWorker, htmp, hdl, hst]

theorem worker_idempotent_skip_witness :
    chunkWorker ⟨true, .ok (7, "abc"), .ok (7, "abc"), .error "unused"⟩ "db" "df" 0 =
      (.completed ⟨"db" ++ "/" ++ ("df" ++ "-" ++ toString (0 : Int)), "abc", 7⟩,
       ⟨false, true⟩) :=
  worker_idempotent_skip _ "db" "df" 0 7 7 "abc" rfl rfl rfl

/-- C5: the manifest order `putManifest` submits is sorted by `Path`
ascending, and for chunk results with pairwise-distinct paths it is the same
for every arrival order of the items (a deterministic function of the set of
items alone). -/
theorem putManifest_sorted_and_deterministic (l1 l2 : List manifestItem)
    (hperm : l1.Perm l2) (hnd : (l1.map manifestItem.Path).Nodup) :
    List.Sorted (fun a b : manifestItem => a.Path ≤ b.Path) (putManifestOrder l1) ∧
    putManifestOrder l1 = putManifestOrder l2 := by
  refine ⟨sorted_putManifestOrder l1, ?_⟩
  have hmperm1 : (putManifestOrder l1).Perm l1 := List.mergeSort_perm l1 manifestLe
  have hmperm2 : (putManifestOrder l2).Perm l2 := List.mergeSort_perm l2 manifestLe
  have hp : (putManifestOrder l1).Perm (putManifestOrder l2) :=
    hmperm1.trans (hperm.trans hmperm2.symm)
  have hnd1 : ((putManifestOrder l1).map manifestItem.Path).Nodup :=
    ((hmperm1.map manifestItem.Path).nodup_iff).mpr hnd
  have hndl2 : (l2.map manifestItem.Path).Nodup :=
    ((hperm.map manifestItem.Path).nodup_iff).mp hnd
  have hnd2 : ((putManifestOrder l2).map manifestItem.Path).Nodup :=
    ((hmperm2.map manifestItem.Path).nodup_iff).mpr hndl2
  exact List.eq_of_perm_of_sorted hp
    (strict_sorted_of_nodup_paths _ hnd1 (sorted_putManifestOrder l1))
    (strict_sorted_of_nodup_paths _ hnd2 (sorted_putManifestOrder l2))

theorem putManifest_sorted_and_deterministic_witness :
    List.Sorted (fun a b : manifestItem => a.Path ≤ b.Path)
      (putManifestOrder [⟨"b", "x", 1⟩, ⟨"a", "y", 2⟩]) ∧
    putManifestOrder [⟨"b", "x", 1⟩, ⟨"a", "y", 2⟩] =
      putManifestOrder [⟨"a", "y", 2⟩, ⟨"b", "x", 1⟩] :=
  putManifest_sorted_and_deterministic
    [⟨"b", "x", 1⟩, ⟨"a", "y", 2⟩] [⟨"a", "y", 2⟩, ⟨"b", "x", 1⟩]
    (by decide) (by decide)

/-- C6: refutation at the failing input.  When `ioutil.TempFile` fails the
worker does not release the buffer path and report the error: the deferred
`os.Remove(tmpFile.Name())` of line 377 evaluates `tmpFile.Name()` on the
nil file handle at the defer statement itself, so the goroutine panics on
the buffer-acquisition-failure exit path, with no release performed. -/
theorem worker_tmpfile_failure_crashes :
    chunkWorker ⟨false, .error "tempfile failed", .error "no stat", .error "no put"⟩
        "db" "df" 0 =
      (.crashed, ⟨false, false⟩) := rfl

/-- C7: for a successful ranged read (`length > 0`) `GetChunk` returns the
hash computed over exactly the bytes read from the requested range, not the
service-reported hash; for `length = 0` the request carries no Range header,
the entire object is read, and the service-reported whole-object hash is
returned. -/
theorem getChunk_hash_of_bytes_read (md5hex : List Nat → String)
    (obj : SrvObject) (offset length : Int) :
    (0 < length →
      GetChunk md5hex true (some (serveGet obj (getChunkRange offset length)))
          none length =
        some (.ok ((((obj.data.drop offset.toNat).take length.toNat).length : Int),
          md5hex ((obj.data.drop offset.toNat).take length.toNat)))) ∧
    (length = 0 →
      GetChunk md5hex true (some (serveGet obj (getChunkRange offset length)))
          none length =
        some (.ok ((obj.data.length : Int), obj.etagFull))) := by
  constructor
  · intro hl
    have harith : offset + length - 1 - offset + 1 = length := by ring
    simp [GetChunk, serveGet, getChunkRange, hl, harith]
  · intro h0
    subst h0
    simp [GetChunk, serveGet, getChunkRange]

theorem getChunk_hash_of_bytes_read_witness :
    GetChunk (fun l => toString l.length) true
        (some (serveGet ⟨[10, 11, 12], "full"⟩ (getChunkRange 1 2))) none 2 =
      some (.ok (2, "2")) ∧
    GetChunk (fun l => toString l.length) true
        (some (serveGet ⟨[10, 11, 12], "full"⟩ (getChunkRange 1 0))) none 0 =
      some (.ok (3, "full")) := by
  constructor
  · have h := (getChunk_hash_of_bytes_read (fun l => toString l.length)
      ⟨[10, 11, 12], "full"⟩ 1 2).1 (by norm_num)
    simpa using h
  · have h := (getChunk_hash_of_bytes_read (fun l => toString l.length)
      ⟨[10, 11, 12], "full"⟩ 1 0).2 rfl
    simpa using h

/-- C10: refutation at the failing input.  When the underlying request fails
and `client.Do` returns a nil response together with an error, none of
`GetFileSize`, `GetChunk`, `PutFile` returns an error value: each
dereferences `resp.StatusCode` on the nil response before checking the
error (lines 189, 230, 283) and panics, modelled as result `none`. -/
theorem transport_failure_is_panic_not_error :
    GetFileSize true none = none ∧
    GetChunk (fun _ => "") true none none 1 = none ∧
    PutFile true none = none :=
  ⟨rfl, rfl, rfl⟩

/-! ## Claim theorems: the orchestration (aggregation, concurrency) -/

/-- C2: at any completed run of the orchestration, `processError` is nil -
i.e. line 472 falls through and the `putManifest` call of line 476 is
issued - if and only if every dispatched chunk's outcome was a success; in
particular an integrity failure (the worker's etag-mismatch error) forces a
non-nil `processError`, so the call returns that error and no manifest write
occurs. -/
theorem manifest_submitted_iff_all_chunks_ok {E M : Type} (cc : Nat)
    (oc : Nat → Except E M) (s : AggSt E M)
    (h : Reachable cc oc s) (hf : s.pc = .finished) :
    s.processError = none ↔ ∀ w, w < cc → (oc w).isOk = true := by
  obtain ⟨h1, h2, h3, h4, h5, h6, h7, h8, h9, h10, h11, h12⟩ := aggInv_reachable h
  simp only [pushes, hf] at h2
  simp only [selectsDone, hf] at h5
  simp only [PcOk, hf] at h6
  have hlen := h7.length_eq
  simp only [List.length_append, List.length_range] at hlen
  constructor
  · intro hpe
    have hsp : s.spawned = cc := h11 (by rw [hf]; trivial) hpe
    have hce : s.consumedErr = [] := h9.mp hpe
    have hce0 : s.consumedErr.length = 0 := by rw [hce]; rfl
    have hsw : s.sentW.length = s.spawned := by omega
    have herrq : s.errQ.length = 0 := by omega
    have hcount : s.sentW.countP (isErrOutcome oc) = 0 := by omega
    have hrun : s.running = [] := List.length_eq_zero.mp (by omega)
    have hperm2 : s.sentW.Perm (List.range s.spawned) := by
      simpa [hrun] using h7
    intro w hw
    have hmem : w ∈ s.sentW :=
      hperm2.mem_iff.mpr (List.mem_range.mpr (by omega))
    have hnp := List.countP_eq_zero.mp hcount w hmem
    simpa [isErrOutcome] using hnp
  · intro hok
    have hcnt : s.sentW.countP (isErrOutcome oc) = 0 := by
      apply List.countP_eq_zero.mpr
      intro w hw
      have hwmem : w ∈ List.range s.spawned :=
        h7.mem_iff.mp (List.mem_append.mpr (Or.inr hw))
      have hwlt : w < s.spawned := List.mem_range.mp hwmem
      have hokw := hok w (by omega)
      simp [isErrOutcome, hokw]
    have hce : s.consumedErr = [] := List.length_eq_zero.mp (by omega)
    exact h9.mpr hce

/-- C3 (amended): at any completed run, the caller receives exactly one
error value and it is the LAST failure the aggregator observed - each error
received in the drain loop (line 462) overwrites the previously latched
`processError` - and the aggregator has observed one outcome per dispatched
worker by the time the run completes. -/
theorem returned_error_is_last_observed {E M : Type} (cc : Nat)
    (oc : Nat → Except E M) (s : AggSt E M)
    (h : Reachable cc oc s) (hf : s.pc = .finished) :
    s.processError = s.consumedErr.getLast? ∧
    s.manifests.length + s.consumedErr.length = s.spawned := by
  obtain ⟨h1, h2, h3, h4, h5, h6, h7, h8, h9, h10, h11, h12⟩ := aggInv_reachable h
  refine ⟨h10, ?_⟩
  simp only [pushes, hf] at h2
  simp only [selectsDone, hf] at h5
  have hlen := h7.length_eq
  simp only [List.length_append, List.length_range] at hlen
  omega

/-- C9: at every reachable instant of a `CopyFile` run, at most 5 chunk
transfer workers are executing concurrently (dispatched and not yet past
their semaphore release), however many chunks the object is split into. -/
theorem at_most_five_workers {E M : Type} (cc : Nat) (oc : Nat → Except E M)
    (s : AggSt E M) (h : Reachable cc oc s) : activeWorkers s ≤ 5 := by
  obtain ⟨h1, h2, h3, h4, h5, h6, h7, h8, h9, h10, h11, h12⟩ := aggInv_reachable h
  unfold activeWorkers
  omega

/-- C8 (amended): `CopyFile` performs no size validation.  For any source
size S ≤ 0 the planned chunk count is nonpositive, the dispatch loop runs
zero iterations, and every completed run ends with `processError = nil` and
an empty manifest list - so the call proceeds to submit an empty manifest
instead of failing with an InvalidSizeError. -/
theorem nonpositive_size_skips_validation (size : Int) (hsz : size ≤ 0)
    {E M : Type} (oc : Nat → Except E M) (s : AggSt E M)
    (h : Reachable (chunkCount size goChunkSize).toNat oc s)
    (hf : s.pc = .finished) :
    chunkCount size goChunkSize ≤ 0 ∧
    s.processError = none ∧ s.manifests = [] := by
  obtain ⟨n, hn⟩ : ∃ n : Nat, size = -(n : Int) := ⟨(-size).toNat, by omega⟩
  have hcs : (0 : Int) ≤ goChunkSize := by decide
  have htd : Int.tdiv size goChunkSize ≤ 0 := by
    rw [hn, Int.neg_tdiv]
    have := Int.tdiv_nonneg (Int.natCast_nonneg n) hcs
    omega
  have htm : ¬ (Int.tmod size goChunkSize > 0) := by
    rw [hn, neg_tmod_eq]
    have := Int.tmod_nonneg goChunkSize (Int.natCast_nonneg n)
    omega
  have hcc : chunkCount size goChunkSize ≤ 0 := by
    unfold chunkCount
    rw [if_neg htm]
    exact htd
  refine ⟨hcc, ?_⟩
  have hcc0 : (chunkCount size goChunkSize).toNat = 0 := Int.toNat_of_nonpos hcc
  rw [hcc0] at h
  obtain ⟨h1, h2, h3, h4, h5, h6, h7, h8, h9, h10, h11, h12⟩ := aggInv_reachable h
  simp only [PcOk, hf] at h6
  have hsp0 : s.spawned = 0 := by omega
  rw [hsp0] at h7
  simp only [List.range_zero] at h7
  obtain ⟨hrun, hsw⟩ := List.append_eq_nil.mp h7.eq_nil
  rw [hsw] at h4
  simp only [List.length_nil] at h4
  have hmf : s.manifests = [] := List.length_eq_zero.mp (by omega)
  have hce : s.consumedErr = [] := List.length_eq_zero.mp (by omega)
  exact ⟨h9.mpr hce, hmf⟩

/-! ## Concrete runs of the orchestration -/

/-- All-success outcome function: every worker reports manifest item 42. -/
def okOutcome : Nat → Except Nat Nat := fun _ => Except.ok 42

/-- All-failure outcome function: worker `w` reports error `w`. -/
def errOutcome : Nat → Except Nat Nat := fun w => Except.error w

/-- Outcome function for runs that dispatch no worker. -/
def zeroOutcome : Nat → Except Nat Nat := fun _ => Except.ok 0

/-- Final state of a one-chunk run in which the single chunk succeeds. -/
def c2Fin : AggSt Nat Nat :=
  ⟨.finished, 1, 5, 1, [], [0], [], [], [42], [], none⟩

theorem c2Fin_reachable : Reachable 1 okOutcome c2Fin := by
  refine Relation.ReflTransGen.head (Step.spawn _ 0 rfl (by decide) (by decide)) ?_
  refine Relation.ReflTransGen.head (Step.wSendOk _ 0 42 (by decide) rfl) ?_
  refine Relation.ReflTransGen.head (Step.selMf _ 0 42 [] rfl rfl) ?_
  refine Relation.ReflTransGen.head (Step.wPop _ (by decide) (by decide)) ?_
  refine Relation.ReflTransGen.head (Step.toDrain _ 1 rfl (by decide)) ?_
  refine Relation.ReflTransGen.head (Step.dPush _ 0 rfl (by decide) (by decide)) ?_
  refine Relation.ReflTransGen.head (Step.dSelNone _ 0 rfl rfl rfl) ?_
  refine Relation.ReflTransGen.head (Step.dPush _ 1 rfl (by decide) (by decide)) ?_
  refine Relation.ReflTransGen.head (Step.dSelNone _ 1 rfl rfl rfl) ?_
  refine Relation.ReflTransGen.head (Step.dPush _ 2 rfl (by decide) (by decide)) ?_
  refine Relation.ReflTransGen.head (Step.dSelNone _ 2 rfl rfl rfl) ?_
  refine Relation.ReflTransGen.head (Step.dPush _ 3 rfl (by decide) (by decide)) ?_
  refine Relation.ReflTransGen.head (Step.dSelNone _ 3 rfl rfl rfl) ?_
  refine Relation.ReflTransGen.head (Step.dPush _ 4 rfl (by decide) (by decide)) ?_
  refine Relation.ReflTransGen.head (Step.dSelNone _ 4 rfl rfl rfl) ?_
  exact Relation.ReflTransGen.single (Step.finish _ 5 rfl (by decide))

/-- Final state of a two-chunk run in which both chunks fail and both errors
are observed during the drain: error 0 first, then error 1. -/
def c3Fin : AggSt Nat Nat :=
  ⟨.finished, 2, 5, 2, [], [0, 1], [], [], [], [0, 1], some 1⟩

theorem c3Fin_reachable : Reachable 2 errOutcome c3Fin := by
  refine Relation.ReflTransGen.head (Step.spawn _ 0 rfl (by decide) (by decide)) ?_
  refine Relation.ReflTransGen.head (Step.selNone _ 0 rfl rfl rfl) ?_
  refine Relation.ReflTransGen.head (Step.spawn _ 1 rfl (by decide) (by decide)) ?_
  refine Relation.ReflTransGen.head (Step.selNone _ 1 rfl rfl rfl) ?_
  refine Relation.ReflTransGen.head (Step.toDrain _ 2 rfl (by decide)) ?_
  refine Relation.ReflTransGen.head (Step.wSendErr _ 0 0 (by decide) rfl) ?_
  refine Relation.ReflTransGen.head (Step.wSendErr _ 1 1 (by decide) rfl) ?_
  refine Relation.ReflTransGen.head (Step.wPop _ (by decide) (by decide)) ?_
  refine Relation.ReflTransGen.head (Step.wPop _ (by decide) (by decide)) ?_
  refine Relation.ReflTransGen.head (Step.dPush _ 0 rfl (by decide) (by decide)) ?_
  refine Relation.ReflTransGen.head (Step.dSelErr _ 0 0 [1] rfl rfl) ?_
  refine Relation.ReflTransGen.head (Step.dPush _ 1 rfl (by decide) (by decide)) ?_
  refine Relation.ReflTransGen.head (Step.dSelErr _ 1 1 [] rfl rfl) ?_
  refine Relation.ReflTransGen.head (Step.dPush _ 2 rfl (by decide) (by decide)) ?_
  refine Relation.ReflTransGen.head (Step.dSelNone _ 2 rfl rfl rfl) ?_
  refine Relation.ReflTransGen.head (Step.dPush _ 3 rfl (by decide) (by decide)) ?_
  refine Relation.ReflTransGen.head (Step.dSelNone _ 3 rfl rfl rfl) ?_
  refine Relation.ReflTransGen.head (Step.dPush _ 4 rfl (by decide) (by decide)) ?_
  refine Relation.ReflTransGen.head (Step.dSelNone _ 4 rfl rfl rfl) ?_
  exact Relation.ReflTransGen.single (Step.finish _ 5 rfl (by decide))

/-- Final state of a zero-chunk run: the loop dispatches nothing and the
drain finds both channels empty five times. -/
def drain0Fin : AggSt Nat Nat :=
  ⟨.finished, 0, 5, 0, [], [], [], [], [], [], none⟩

theorem drain0Fin_reachable : Reachable 0 zeroOutcome drain0Fin := by
  refine Relation.ReflTransGen.head (Step.toDrain _ 0 rfl (by decide)) ?_
  refine Relation.ReflTransGen.head (Step.dPush _ 0 rfl (by decide) (by decide)) ?_
  refine Relation.ReflTransGen.head (Step.dSelNone _ 0 rfl rfl rfl) ?_
  refine Relation.ReflTransGen.head (Step.dPush _ 1 rfl (by decide) (by decide)) ?_
  refine Relation.ReflTransGen.head (Step.dSelNone _ 1 rfl rfl rfl) ?_
  refine Relation.ReflTransGen.head (Step.dPush _ 2 rfl (by decide) (by decide)) ?_
  refine Relation.ReflTransGen.head (Step.dSelNone _ 2 rfl rfl rfl) ?_
  refine Relation.ReflTransGen.head (Step.dPush _ 3 rfl (by decide) (by decide)) ?_
  refine Relation.ReflTransGen.head (Step.dSelNone _ 3 rfl rfl rfl) ?_
  refine Relation.ReflTransGen.head (Step.dPush _ 4 rfl (by decide) (by decide)) ?_
  refine Relation.ReflTransGen.head (Step.dSelNone _ 4 rfl rfl rfl) ?_
  exact Relation.ReflTransGen.single (Step.finish _ 5 rfl (by decide))

/-! ## Counterexamples and witnesses for the orchestration claims -/

/-- C3: refutation of the first-error rule.  In a real schedule of a
two-chunk run both workers fail; the aggregator observes error 0 first and
error 1 second (both in the drain loop), and the returned `processError` is
the SECOND error, not the first failure observed. -/
theorem last_error_overwrites_first :
    Reachable 2 errOutcome c3Fin ∧ c3Fin.pc = .finished ∧
    c3Fin.consumedErr = [0, 1] ∧ c3Fin.processError = some 1 ∧
    c3Fin.processError ≠ some 0 :=
  ⟨c3Fin_reachable, rfl, rfl, rfl, by decide⟩

theorem manifest_submitted_iff_all_chunks_ok_witness :
    c2Fin.processError = none :=
  (manifest_submitted_iff_all_chunks_ok 1 okOutcome c2Fin c2Fin_reachable rfl).mpr
    (by decide)

theorem returned_error_is_last_observed_witness :
    c3Fin.processError = c3Fin.consumedErr.getLast? ∧
    c3Fin.manifests.length + c3Fin.consumedErr.length = c3Fin.spawned :=
  returned_error_is_last_observed 2 errOutcome c3Fin c3Fin_reachable rfl

theorem at_most_five_workers_witness : activeWorkers c2Fin ≤ 5 :=
  at_most_five_workers 1 okOutcome c2Fin c2Fin_reachable

/-- C8: refutation of the claim as stated.  For source size S = 0 the plan
has zero chunks, and a completed run ends with `processError = nil` and an
empty manifest list: `CopyFile` does not return an InvalidSizeError - it
falls through to the `putManifest` call and submits an empty manifest. -/
theorem zero_size_reaches_manifest_write :
    chunkCount 0 goChunkSize = 0 ∧
    Reachable 0 zeroOutcome drain0Fin ∧ drain0Fin.pc = .finished ∧
    drain0Fin.processError = none ∧ drain0Fin.manifests = [] :=
  ⟨by decide, drain0Fin_reachable, rfl, rfl, rfl⟩

theorem nonpositive_size_skips_validation_witness :
    chunkCount 0 goChunkSize ≤ 0 ∧
    drain0Fin.processError = none ∧ drain0Fin.manifests = [] :=
  nonpositive_size_skips_validation 0 (by decide) zeroOutcome drain0Fin
    drain0Fin_reachable rfl
